import Mathlib

/-!
# goproxy: mode assembly and dispatch

A shallow embedding of `goproxy.go` (package `main`): the configuration record, the
two mode assemblers `run_server` and `run_httproxy`, the resolver bootstrap
`load_resolv_conf`, the startup functions `LoadConfig` and `SetLogging`, and `main`.

The program is glue over external collaborators (`net`, `cryptconn`, `msocks`,
`ipfilter`, `dns`, `net/http`, `go-logging`).  Every call the program makes to a
collaborator is recorded, in program order, in a trace of `Event`s, and what the
collaborator answers (success, an error, or never returning for the two blocking
serve calls) is read from a `World`, over which every theorem quantifies.  The value a
collaborator's constructor returns on success is the symbolic record of the
constructor and its arguments.
-/

namespace Goproxy

/-! ## Data model -/

/-- A Go `error` value, identified with the text `err.Error()` yields. -/
structure Error where
  msg : String
  deriving DecidableEq, Repr

/-- The `Config` struct of `goproxy.go`, field for field. -/
structure Config where
  Mode : String
  Listen : String
  Server : String
  Logfile : String
  Loglevel : String
  Cipher : String
  Key : String
  Blackfile : String
  ResolvConf : String
  Username : String
  Password : String
  Auth : List (String × String)
  deriving DecidableEq, Repr

/-- The zero value of `Config` (what `var cfg Config` holds before decoding). -/
def Config.zero : Config :=
  ⟨"", "", "", "", "", "", "", "", "", "", "", []⟩

/-- Severities of `go-logging`, most severe first. -/
inductive Level
  | critical | error | warning | notice | info | debug
  deriving DecidableEq, Repr

/-- A `net.Listener` value: the raw listener `net.Listen` returns, or the one
`cryptconn.NewListener` builds around an inner listener. -/
inductive Listener
  | tcp (network addr : String)
  | crypt (inner : Listener) (cipher key : String)
  deriving DecidableEq, Repr

/-- A `sutils.Dialer` interface value, by dynamic type: `sutils.DefaultTcpDialer`, the
dialer `cryptconn.NewDialer` builds, a `*msocks.Dialer`, or the dialer
`ipfilter.NewFilteredDialer` builds. -/
inductive Dialer
  | DefaultTcpDialer
  | crypt (inner : Dialer) (cipher key : String)
  | msocks (inner : Dialer) (serveraddr username password : String)
  | filtered (dialer fallback : Dialer) (blackfile : String)
  deriving DecidableEq, Repr

/-- The concrete type `*msocks.Dialer`, as `msocks.NewDialer` returns it. -/
structure MsocksDialer where
  inner : Dialer
  serveraddr : String
  username : String
  password : String
  deriving DecidableEq, Repr

/-- Storing a `*msocks.Dialer` in a variable of interface type `sutils.Dialer`. -/
def MsocksDialer.toDialer (d : MsocksDialer) : Dialer :=
  .msocks d.inner d.serveraddr d.username d.password

/-- The type assertion `dialer.(*msocks.Dialer)`: `none` is the case in which Go
panics because the dynamic type is another one. -/
def Dialer.assertMsocks : Dialer → Option MsocksDialer
  | .msocks inner s u p => some ⟨inner, s, u, p⟩
  | _ => none

/-- The `*msocks.MsocksService` that `msocks.NewService` returns. -/
structure Service where
  auth : List (String × String)
  dialer : Dialer
  deriving DecidableEq, Repr

/-- Modelled from the spec: `NewMsocksManager` (package `main`, not in the given
source) wraps the concrete tunnel dialer whose administrative surface it serves. -/
structure MsocksManager where
  ndialer : MsocksDialer
  deriving DecidableEq, Repr

/-- A `*http.ServeMux`, by the managers whose routes were registered on it, in
registration order. -/
structure ServeMux where
  registered : List MsocksManager
  deriving DecidableEq, Repr

/-- The router `http.NewServeMux()` returns: nothing registered. -/
def ServeMux.new : ServeMux := ⟨[]⟩

/-- Modelled from the spec: `(*MsocksManager).Register(mux)` (package `main`, not in
the given source) registers the manager's administrative routes on `mux`. -/
def MsocksManager.Register (m : MsocksManager) (mux : ServeMux) : ServeMux :=
  ⟨mux.registered ++ [m]⟩

/-- Modelled from the spec: `NewProxy(dialer, mux)` (package `main`, not in the given
source) is the HTTP handler that forwards proxy requests through `dialer` and
administrative requests through `mux`. -/
structure Proxy where
  dialer : Dialer
  mux : ServeMux
  deriving DecidableEq, Repr

/-- Where the log backend writes: `os.Stdout` or the opened log file. -/
inductive LogTarget
  | stdout
  | file (path : String)
  deriving DecidableEq, Repr

/-- The two mode assemblers `main` can call. -/
inductive Assembler
  | run_server | run_httproxy
  deriving DecidableEq, Repr

/-- One observable action of the program, in the order the program performs it. -/
inductive Event
  | osOpen (path : String)
  | jsonDecode (path : String)
  | fileClose (path : String)
  | println (text : String)
  | osOpenFile (path : String)
  | setBackend (target : LogTarget)
  | setFormatter
  | logLevel (name : String)
  | setLevel (lv : Level)
  | log (lv : Level) (text : String)
  | call (f : Assembler)
  | dnsLoadConfig (path : String)
  | netListen (network addr : String)
  | cryptNewListener (inner : Listener) (cipher key : String)
  | msocksNewService (auth : List (String × String)) (dialer : Dialer)
  | serve (s : Service) (l : Listener)
  | cryptNewDialer (inner : Dialer) (cipher key : String)
  | msocksNewDialer (inner : Dialer) (serveraddr username password : String)
  | newFilteredDialer (dialer fallback : Dialer) (blackfile : String)
  | newServeMux
  | register (m : MsocksManager)
  | listenAndServe (addr : String) (handler : Proxy)
  deriving DecidableEq, Repr

/-- What a blocking serve call does: return its `error` result (possibly `nil`), or
never return. -/
inductive ServeResult
  | returns (err : Option Error)
  | blocks
  deriving DecidableEq, Repr

/-- The answers of the collaborators: for each fallible call, `none`/`.ok` for success
and the error otherwise. -/
structure World where
  /-- Value of the `-config` flag after `flag.Parse()`. -/
  configfile : String
  /-- Outcome of `os.Open(path)`. -/
  osOpen : String → Option Error
  /-- Outcome of `dec.Decode(&cfg)` on the file at `path`: the configuration as
  decoding left it, and the error if any. -/
  jsonDecode : String → Config × Option Error
  /-- Outcome of `os.OpenFile(path, O_RDWR|O_CREATE|O_APPEND, 0600)`. -/
  osOpenFile : String → Option Error
  /-- Outcome of `logging.LogLevel(name)`. -/
  logLevel : String → Except Error Level
  /-- Outcome of `dns.LoadConfig(path)`. -/
  dnsLoadConfig : String → Option Error
  /-- Outcome of `net.Listen(network, addr)`. -/
  netListen : String → String → Option Error
  /-- Outcome of `cryptconn.NewListener(inner, cipher, key)`. -/
  cryptNewListener : Listener → String → String → Option Error
  /-- Outcome of `msocks.NewService(auth, dialer)`. -/
  msocksNewService : List (String × String) → Dialer → Option Error
  /-- Outcome of `s.Serve(listener)`. -/
  serve : Service → Listener → ServeResult
  /-- Outcome of `cryptconn.NewDialer(inner, cipher, key)`. -/
  cryptNewDialer : Dialer → String → String → Option Error
  /-- Outcome of `msocks.NewDialer(inner, serveraddr, username, password)`. -/
  msocksNewDialer : Dialer → String → String → String → Option Error
  /-- Outcome of `ipfilter.NewFilteredDialer(dialer, fallback, blackfile)`. -/
  newFilteredDialer : Dialer → Dialer → String → Option Error
  /-- Outcome of `http.ListenAndServe(addr, handler)`. -/
  listenAndServe : String → Proxy → ServeResult

/-! ## Runs: a trace and how control leaves -/

/-- Ways control never comes back to the caller. -/
inductive Halt
  | osExit (code : Nat)
  | panicked (text : String)
  | blocked
  deriving DecidableEq, Repr

/-- Result of running a piece of the program: the value it returns to its caller, or
the reason it never returns. -/
inductive Res (α : Type)
  | val (a : α)
  | halt (h : Halt)
  deriving DecidableEq, Repr

/-- A run: the events performed, in order, and the result. -/
structure Run (α : Type) where
  trace : List Event
  res : Res α
  deriving DecidableEq, Repr

/-- Sequencing: the continuation runs only when the first part returned. -/
def Run.bind {α β : Type} (m : Run α) (f : α → Run β) : Run β :=
  match m.res with
  | .val a => ⟨m.trace ++ (f a).trace, (f a).res⟩
  | .halt h => ⟨m.trace, .halt h⟩

instance : Monad Run where
  pure a := ⟨[], .val a⟩
  bind := Run.bind

/-- Perform one event and go on. -/
def emit (e : Event) : Run Unit := ⟨[e], .val ()⟩

/-- Perform one event whose answer is `a`. -/
def ask {α : Type} (e : Event) (a : α) : Run α := ⟨[e], .val a⟩

/-- Control stops here. -/
def halt {α : Type} (h : Halt) : Run α := ⟨[], .halt h⟩

/-- How a blocking serve call ends for its caller: with the returned error result,
or never. -/
def ServeResult.toRes : ServeResult → Res (Option Error)
  | .returns err => .val err
  | .blocks => .halt .blocked

/-- A blocking serve call: returns its error result or blocks for ever. -/
def blocking (e : Event) (r : ServeResult) : Run (Option Error) := ⟨[e], r.toRes⟩

/-! ## Collaborator calls -/

/-- The call `net.Listen(network, addr)`. -/
def net_Listen (w : World) (network addr : String) : Run (Except Error Listener) :=
  ask (.netListen network addr)
    (match w.netListen network addr with
     | some err => .error err
     | none => .ok (.tcp network addr))

/-- The call `cryptconn.NewListener(inner, cipher, key)`. -/
def cryptconn_NewListener (w : World) (inner : Listener) (cipher key : String) :
    Run (Except Error Listener) :=
  ask (.cryptNewListener inner cipher key)
    (match w.cryptNewListener inner cipher key with
     | some err => .error err
     | none => .ok (.crypt inner cipher key))

/-- The call `msocks.NewService(auth, dialer)`. -/
def msocks_NewService (w : World) (auth : List (String × String)) (dialer : Dialer) :
    Run (Except Error Service) :=
  ask (.msocksNewService auth dialer)
    (match w.msocksNewService auth dialer with
     | some err => .error err
     | none => .ok ⟨auth, dialer⟩)

/-- The call `s.Serve(listener)`. -/
def Service.Serve (w : World) (s : Service) (listener : Listener) : Run (Option Error) :=
  blocking (.serve s listener) (w.serve s listener)

/-- The call `dns.LoadConfig(path)`. -/
def dns_LoadConfig (w : World) (path : String) : Run (Option Error) :=
  ask (.dnsLoadConfig path) (w.dnsLoadConfig path)

/-- The call `cryptconn.NewDialer(inner, cipher, key)`. -/
def cryptconn_NewDialer (w : World) (inner : Dialer) (cipher key : String) :
    Run (Except Error Dialer) :=
  ask (.cryptNewDialer inner cipher key)
    (match w.cryptNewDialer inner cipher key with
     | some err => .error err
     | none => .ok (.crypt inner cipher key))

/-- The call `msocks.NewDialer(inner, serveraddr, username, password)`, which returns
the concrete `*msocks.Dialer`. -/
def msocks_NewDialer (w : World) (inner : Dialer) (serveraddr username password : String) :
    Run (Except Error MsocksDialer) :=
  ask (.msocksNewDialer inner serveraddr username password)
    (match w.msocksNewDialer inner serveraddr username password with
     | some err => .error err
     | none => .ok ⟨inner, serveraddr, username, password⟩)

/-- The call `ipfilter.NewFilteredDialer(dialer, fallback, blackfile)`. -/
def ipfilter_NewFilteredDialer (w : World) (dialer fallback : Dialer) (blackfile : String) :
    Run (Except Error Dialer) :=
  ask (.newFilteredDialer dialer fallback blackfile)
    (match w.newFilteredDialer dialer fallback blackfile with
     | some err => .error err
     | none => .ok (.filtered dialer fallback blackfile))

/-- The call `http.ListenAndServe(addr, handler)`. -/
def http_ListenAndServe (w : World) (addr : String) (handler : Proxy) : Run (Option Error) :=
  blocking (.listenAndServe addr handler) (w.listenAndServe addr handler)

/-! ## The program -/

/-- Server mode, `run_server`: listen, wrap the listener with encryption, build the
tunnel service over the direct dialer, serve. -/
def run_server (w : World) (cfg : Config) : Run (Option Error) := do
  match ← net_Listen w "tcp" cfg.Listen with
  | .error err => return some err
  | .ok listener =>
  match ← cryptconn_NewListener w listener cfg.Cipher cfg.Key with
  | .error err => return some err
  | .ok listener =>
  match ← msocks_NewService w cfg.Auth .DefaultTcpDialer with
  | .error err => return some err
  | .ok s => Service.Serve w s listener

/-- Resolver bootstrap, `load_resolv_conf`. -/
def load_resolv_conf (w : World) (cfg : Config) : Run (Option Error) := do
  if cfg.ResolvConf ≠ "" then
    let err ← dns_LoadConfig w cfg.ResolvConf
    return err
  else
  let err ← dns_LoadConfig w "resolv.conf"
  if err = none then
    return err
  else
  let err ← dns_LoadConfig w "/etc/goproxy/resolv.conf"
  return err

/-- Modelled from the spec: the constructor `NewMsocksManager(ndialer)` of package
`main`, not in the given source. -/
def NewMsocksManager (ndialer : MsocksDialer) : MsocksManager := ⟨ndialer⟩

/-- Modelled from the spec: the constructor `NewProxy(dialer, mux)` of package `main`,
not in the given source. -/
def NewProxy (dialer : Dialer) (mux : ServeMux) : Proxy := ⟨dialer, mux⟩

/-- Http mode, `run_httproxy`: load the resolver configuration, wrap the direct dialer
with encryption, build the tunnel dialer over it, keep the concrete tunnel dialer,
optionally wrap with the blacklist filter, register the administrative routes, serve. -/
def run_httproxy (w : World) (cfg : Config) : Run (Option Error) := do
  match ← load_resolv_conf w cfg with
  | some err => return some err
  | none =>
  match ← cryptconn_NewDialer w .DefaultTcpDialer cfg.Cipher cfg.Key with
  | .error err => return some err
  | .ok dialer =>
  match ← msocks_NewDialer w dialer cfg.Server cfg.Username cfg.Password with
  | .error err => return some err
  | .ok d =>
  let dialer := d.toDialer
  match dialer.assertMsocks with
  | none => halt (.panicked "interface conversion: sutils.Dialer is not *msocks.Dialer")
  | some ndialer =>
  match ← (if cfg.Blackfile ≠ "" then
      ipfilter_NewFilteredDialer w dialer .DefaultTcpDialer cfg.Blackfile
    else pure (.ok dialer)) with
  | .error err => return some err
  | .ok dialer =>
  let mux ← ask .newServeMux ServeMux.new
  let mux ← ask (.register (NewMsocksManager ndialer)) ((NewMsocksManager ndialer).Register mux)
  http_ListenAndServe w cfg.Listen (NewProxy dialer mux)

/-- Startup, `LoadConfig`: open the file the `-config` flag names and decode it. -/
def LoadConfig (w : World) : Run (Config × Option Error) := do
  let configfile := w.configfile
  match ← ask (.osOpen configfile) (w.osOpen configfile) with
  | some err => return (Config.zero, some err)
  | none =>
  let (cfg, err) ← ask (.jsonDecode configfile) (w.jsonDecode configfile)
  emit (.fileClose configfile)
  return (cfg, err)

/-- The call `log.Fatal(err)` of `go-logging`: log at critical severity, then
`os.Exit(1)`. -/
def log_Fatal {α : Type} (err : Error) : Run α := do
  emit (.log .critical err.msg)
  halt (.osExit 1)

/-- Startup, `SetLogging`: choose the log target, install backend and formatter, set
the level named by `Loglevel`. -/
def SetLogging (w : World) (cfg : Config) : Run (Option Error) := do
  let file ← (if cfg.Logfile ≠ "" then do
      match ← ask (.osOpenFile cfg.Logfile) (w.osOpenFile cfg.Logfile) with
      | some err => log_Fatal err
      | none => pure (LogTarget.file cfg.Logfile)
    else pure LogTarget.stdout)
  emit (.setBackend file)
  emit .setFormatter
  match ← ask (.logLevel cfg.Loglevel) (w.logLevel cfg.Loglevel) with
  | .error err => halt (.panicked err.msg)
  | .ok lv =>
  emit (.setLevel lv)
  return none

/-- The dispatcher, `main`. -/
def main (w : World) : Run Unit := do
  let (cfg, err) ← LoadConfig w
  if let some e := err then
    emit (.println e.msg)
    return
  let err ← SetLogging w cfg
  if let some e := err then
    emit (.println e.msg)
    return
  emit (.log .notice (cfg.Mode ++ " mode start."))
  if cfg.Mode = "stop" then
    emit (.log .info "server stopped in stop mode")
    return
  let err ← (if cfg.Mode = "server" then do
      emit (.call .run_server)
      run_server w cfg
    else if cfg.Mode = "http" then do
      emit (.call .run_httproxy)
      run_httproxy w cfg
    else do
      emit (.log .warning "not supported mode.")
      pure err)
  if let some e := err then
    emit (.log .error e.msg)
  emit (.log .info "server stopped")

/-- Modelled from the spec: the dialer that finally serves `Dial(addr)`.  A filtered
dialer (`ipfilter`, not in the given source) delegates to its fallback when `addr`
matches a rule of its blacklist file and to its primary dialer otherwise; whether an
address matches is the collaborator's, given here as `blacklisted blackfile addr`. -/
def Dialer.delegate (blacklisted : String → String → Bool) : Dialer → String → Dialer
  | .filtered dialer fallback blackfile, addr =>
    if blacklisted blackfile addr then fallback.delegate blacklisted addr
    else dialer.delegate blacklisted addr
  | .DefaultTcpDialer, _ => .DefaultTcpDialer
  | .crypt inner cipher key, _ => .crypt inner cipher key
  | .msocks inner s u p, _ => .msocks inner s u p

/-! ## Reading traces -/

/-- The managers whose administrative routes a trace registers, in order. -/
def registrations (tr : List Event) : List MsocksManager :=
  tr.filterMap fun e => match e with
    | .register m => some m
    | _ => none

/-- Whether an event is the start of the HTTP server. -/
def Event.isListenAndServe : Event → Bool
  | .listenAndServe _ _ => true
  | _ => false

/-- The dialers handed to the proxy handler that is served, in order. -/
def handedDialers (tr : List Event) : List Dialer :=
  tr.filterMap fun e => match e with
    | .listenAndServe _ handler => some handler.dialer
    | _ => none

/-- Whether an event is a call of `main` to a mode assembler. -/
def Event.isCall : Event → Bool
  | .call _ => true
  | _ => false

/-- Whether an event is a log line of error severity. -/
def Event.isErrorLog : Event → Bool
  | .log .error _ => true
  | _ => false

/-- The calls to a mode assembler in a trace. -/
def assemblerCalls (tr : List Event) : List Event := tr.filter Event.isCall

/-- The log lines of error severity in a trace. -/
def errorLogs (tr : List Event) : List Event := tr.filter Event.isErrorLog

/-- Whether an event opens a network resource or loads resolver configuration: a
listener, a dialer construction, a tunnel service, a serve loop, a resolver load. -/
def Event.isResource : Event → Bool
  | .dnsLoadConfig _ => true
  | .netListen _ _ => true
  | .cryptNewListener _ _ _ => true
  | .msocksNewService _ _ => true
  | .serve _ _ => true
  | .cryptNewDialer _ _ _ => true
  | .msocksNewDialer _ _ _ _ => true
  | .newFilteredDialer _ _ _ => true
  | .listenAndServe _ _ => true
  | _ => false

/-- Whether an event reports an error: a printed line, or a log line of error or
critical severity. -/
def Event.isErrorReport : Event → Bool
  | .println _ => true
  | .log .error _ => true
  | .log .critical _ => true
  | _ => false

/-! ## Values the assemblers are expected to build -/

/-- The raw listener of server mode: `net.Listen("tcp", cfg.Listen)`. -/
def rawListener (cfg : Config) : Listener := .tcp "tcp" cfg.Listen

/-- The encrypting listener of server mode: `cryptconn.NewListener` over the raw one. -/
def encListener (cfg : Config) : Listener := .crypt (rawListener cfg) cfg.Cipher cfg.Key

/-- The tunnel service of server mode: `msocks.NewService(cfg.Auth, DefaultTcpDialer)`. -/
def tunnelService (cfg : Config) : Service := ⟨cfg.Auth, .DefaultTcpDialer⟩

/-- The encrypting dialer of http mode: `cryptconn.NewDialer(DefaultTcpDialer, Cipher, Key)`. -/
def encDialer (cfg : Config) : Dialer := .crypt .DefaultTcpDialer cfg.Cipher cfg.Key

/-- The concrete tunnel dialer of http mode:
`msocks.NewDialer(encDialer, Server, Username, Password)`. -/
def tunnelDialer (cfg : Config) : MsocksDialer :=
  ⟨encDialer cfg, cfg.Server, cfg.Username, cfg.Password⟩

/-- The filtered dialer of http mode:
`ipfilter.NewFilteredDialer(tunnel dialer, DefaultTcpDialer, Blackfile)`. -/
def filteredDialer (cfg : Config) : Dialer :=
  .filtered (tunnelDialer cfg).toDialer .DefaultTcpDialer cfg.Blackfile

/-- The dialer http mode ends with: the filtered dialer when `Blackfile` is set, the
tunnel dialer otherwise. -/
def finalDialer (cfg : Config) : Dialer :=
  if cfg.Blackfile ≠ "" then filteredDialer cfg else (tunnelDialer cfg).toDialer

/-- The manager built from the concrete tunnel dialer. -/
def tunnelManager (cfg : Config) : MsocksManager := NewMsocksManager (tunnelDialer cfg)

/-- The router of http mode: a fresh router on which the tunnel manager registered. -/
def adminMux (cfg : Config) : ServeMux := (tunnelManager cfg).Register ServeMux.new

/-- The dialer-construction steps of http mode, in order. -/
def dialerSteps (cfg : Config) : List Event :=
  [.cryptNewDialer .DefaultTcpDialer cfg.Cipher cfg.Key,
   .msocksNewDialer (encDialer cfg) cfg.Server cfg.Username cfg.Password]
    ++ (if cfg.Blackfile ≠ "" then
          [.newFilteredDialer (tunnelDialer cfg).toDialer .DefaultTcpDialer cfg.Blackfile]
        else [])

/-- The serving steps of http mode, in order. -/
def serveSteps (cfg : Config) : List Event :=
  [.newServeMux, .register (tunnelManager cfg),
   .listenAndServe cfg.Listen (NewProxy (finalDialer cfg) (adminMux cfg))]

/-! ## Concrete worlds and configurations -/

/-- A world in which every collaborator succeeds and the serve calls return `nil`. -/
def okWorld : World where
  configfile := "/etc/goproxy/config.json"
  osOpen _ := none
  jsonDecode _ := (Config.zero, none)
  osOpenFile _ := none
  logLevel _ := .ok .info
  dnsLoadConfig _ := none
  netListen _ _ := none
  cryptNewListener _ _ _ := none
  msocksNewService _ _ := none
  serve _ _ := .returns none
  cryptNewDialer _ _ _ := none
  msocksNewDialer _ _ _ _ := none
  newFilteredDialer _ _ _ := none
  listenAndServe _ _ := .returns none

/-- A sample configuration; tests change the fields they need. -/
def sampleCfg : Config where
  Mode := "http"
  Listen := ":5233"
  Server := "srv:5234"
  Logfile := ""
  Loglevel := "INFO"
  Cipher := "aes"
  Key := "k"
  Blackfile := ""
  ResolvConf := ""
  Username := "alice"
  Password := "secret"
  Auth := [("alice", "secret")]

/-- The world in which the configuration file decodes to `cfg` and every other
collaborator succeeds. -/
def worldOf (cfg : Config) : World :=
  { okWorld with jsonDecode := fun _ => (cfg, none) }

/-- Stop mode. -/
def stopCfg : Config := { sampleCfg with Mode := "stop" }

/-- Server mode. -/
def serverCfg : Config := { sampleCfg with Mode := "server" }

/-- A mode the dispatcher does not know. -/
def socksCfg : Config := { sampleCfg with Mode := "socks5" }

/-- Http mode with a blacklist file. -/
def blackCfg : Config := { sampleCfg with Blackfile := "/etc/goproxy/black.txt" }

/-- Http mode with an explicit resolver file. -/
def customCfg : Config := { sampleCfg with ResolvConf := "custom.conf" }

/-- Every resolver file is missing. -/
def noResolvWorld (cfg : Config) : World :=
  { worldOf cfg with dnsLoadConfig := fun _ => some ⟨"no such file or directory"⟩ }

/-- Only the system resolver file exists. -/
def systemResolvWorld (cfg : Config) : World :=
  { worldOf cfg with
    dnsLoadConfig := fun path =>
      if path = "/etc/goproxy/resolv.conf" then none
      else some ⟨"no such file or directory"⟩ }

/-- The listen address is already in use. -/
def bindFailWorld (cfg : Config) : World :=
  { worldOf cfg with netListen := fun _ _ => some ⟨"address already in use"⟩ }

/-- The tunnel server rejects the credentials. -/
def authFailWorld (cfg : Config) : World :=
  { worldOf cfg with msocksNewDialer := fun _ _ _ _ => some ⟨"auth failed"⟩ }

/-- The log file cannot be opened. -/
def logFileFailWorld (cfg : Config) : World :=
  { worldOf cfg with osOpenFile := fun _ => some ⟨"permission denied"⟩ }

/-- The log level name is not recognised. -/
def logLevelFailWorld (cfg : Config) : World :=
  { worldOf cfg with logLevel := fun _ => .error ⟨"logger: invalid log level"⟩ }

/-- The configuration file is missing. -/
def noConfigWorld : World :=
  { okWorld with osOpen := fun _ => some ⟨"no such file or directory"⟩ }

/-! ## Unfolding runs -/

@[simp] theorem bind_val {α β : Type} (tr : List Event) (a : α) (f : α → Run β) :
    (bind (⟨tr, .val a⟩ : Run α) f) = ⟨tr ++ (f a).trace, (f a).res⟩ := rfl

@[simp] theorem bind_halt {α β : Type} (tr : List Event) (h : Halt) (f : α → Run β) :
    (bind (⟨tr, .halt h⟩ : Run α) f) = ⟨tr, .halt h⟩ := rfl

@[simp] theorem pure_run {α : Type} (a : α) : (pure a : Run α) = ⟨[], .val a⟩ := rfl

/-! ## Resolver bootstrap -/

/-- C4: with a non-empty `ResolvConf`, `load_resolv_conf` calls the resolver loader
exactly once, on `ResolvConf`, and returns that call's outcome unchanged; no other path
is attempted, whether the call succeeds or fails: neither `resolv.conf` nor
`/etc/goproxy/resolv.conf` is tried, unless it is `ResolvConf` itself. -/
theorem load_resolv_conf_explicit (w : World) (cfg : Config) (h : cfg.ResolvConf ≠ "") :
    load_resolv_conf w cfg
        = ⟨[.dnsLoadConfig cfg.ResolvConf], .val (w.dnsLoadConfig cfg.ResolvConf)⟩
      ∧ (∀ p, Event.dnsLoadConfig p ∈ (load_resolv_conf w cfg).trace → p = cfg.ResolvConf)
      ∧ (cfg.ResolvConf ≠ "resolv.conf" →
          Event.dnsLoadConfig "resolv.conf" ∉ (load_resolv_conf w cfg).trace)
      ∧ (cfg.ResolvConf ≠ "/etc/goproxy/resolv.conf" →
          Event.dnsLoadConfig "/etc/goproxy/resolv.conf" ∉ (load_resolv_conf w cfg).trace) := by
  have key : load_resolv_conf w cfg
      = ⟨[.dnsLoadConfig cfg.ResolvConf], .val (w.dnsLoadConfig cfg.ResolvConf)⟩ := by
    simp [load_resolv_conf, dns_LoadConfig, ask, h]
  have only : ∀ p, Event.dnsLoadConfig p ∈ (load_resolv_conf w cfg).trace
      → p = cfg.ResolvConf := by
    intro p hp
    rw [key] at hp
    simpa using hp
  exact ⟨key, only, fun hne hp => hne (only _ hp).symm, fun hne hp => hne (only _ hp).symm⟩

/-- C5: with an empty `ResolvConf`, `load_resolv_conf` first tries `resolv.conf`; on
success it returns success and tries nothing else; on failure it tries
`/etc/goproxy/resolv.conf` and returns the outcome of that second attempt. -/
theorem load_resolv_conf_search (w : World) (cfg : Config) (h : cfg.ResolvConf = "") :
    (w.dnsLoadConfig "resolv.conf" = none →
        load_resolv_conf w cfg = ⟨[.dnsLoadConfig "resolv.conf"], .val none⟩)
      ∧ (∀ err, w.dnsLoadConfig "resolv.conf" = some err →
        load_resolv_conf w cfg
          = ⟨[.dnsLoadConfig "resolv.conf", .dnsLoadConfig "/etc/goproxy/resolv.conf"],
              .val (w.dnsLoadConfig "/etc/goproxy/resolv.conf")⟩) := by
  constructor
  · intro h1
    simp [load_resolv_conf, dns_LoadConfig, ask, h, h1]
  · intro err h1
    simp [load_resolv_conf, dns_LoadConfig, ask, h, h1]

/-! ## Server mode -/

/-- C2: `run_server` performs, in this order, `net.Listen`, `cryptconn.NewListener`,
`msocks.NewService(Auth, DefaultTcpDialer)` and `Serve` on the encrypting listener; the
first step that fails ends the run, its error is what `run_server` returns, and no
later step is performed. -/
theorem run_server_steps (w : World) (cfg : Config) :
    (∀ err, w.netListen "tcp" cfg.Listen = some err →
        run_server w cfg = ⟨[.netListen "tcp" cfg.Listen], .val (some err)⟩)
      ∧ (w.netListen "tcp" cfg.Listen = none →
          ∀ err, w.cryptNewListener (rawListener cfg) cfg.Cipher cfg.Key = some err →
        run_server w cfg
          = ⟨[.netListen "tcp" cfg.Listen,
              .cryptNewListener (rawListener cfg) cfg.Cipher cfg.Key], .val (some err)⟩)
      ∧ (w.netListen "tcp" cfg.Listen = none →
          w.cryptNewListener (rawListener cfg) cfg.Cipher cfg.Key = none →
          ∀ err, w.msocksNewService cfg.Auth .DefaultTcpDialer = some err →
        run_server w cfg
          = ⟨[.netListen "tcp" cfg.Listen,
              .cryptNewListener (rawListener cfg) cfg.Cipher cfg.Key,
              .msocksNewService cfg.Auth .DefaultTcpDialer], .val (some err)⟩)
      ∧ (w.netListen "tcp" cfg.Listen = none →
          w.cryptNewListener (rawListener cfg) cfg.Cipher cfg.Key = none →
          w.msocksNewService cfg.Auth .DefaultTcpDialer = none →
        run_server w cfg
          = ⟨[.netListen "tcp" cfg.Listen,
              .cryptNewListener (rawListener cfg) cfg.Cipher cfg.Key,
              .msocksNewService cfg.Auth .DefaultTcpDialer,
              .serve (tunnelService cfg) (encListener cfg)],
              (w.serve (tunnelService cfg) (encListener cfg)).toRes⟩) := by
  refine ⟨?_, ?_, ?_, ?_⟩
  · intro err h1
    simp [run_server, net_Listen, ask, h1]
  · intro h1 err h2
    simp only [rawListener] at h2
    simp [run_server, net_Listen, cryptconn_NewListener, ask, h1, h2, rawListener]
  · intro h1 h2 err h3
    simp only [rawListener] at h2
    simp [run_server, net_Listen, cryptconn_NewListener, msocks_NewService, ask, h1, h2, h3,
      rawListener]
  · intro h1 h2 h3
    simp only [rawListener] at h2
    simp [run_server, net_Listen, cryptconn_NewListener, msocks_NewService, Service.Serve,
      blocking, ask, h1, h2, h3, rawListener, tunnelService, encListener]

/-! ## Http mode -/

theorem assertMsocks_toDialer (d : MsocksDialer) : d.toDialer.assertMsocks = some d := rfl

/-- The resolver bootstrap always returns to its caller, and performs resolver loads
only. -/
theorem load_resolv_conf_shape (w : World) (cfg : Config) :
    (∃ r, (load_resolv_conf w cfg).res = .val r)
      ∧ ∀ e ∈ (load_resolv_conf w cfg).trace, ∃ p, e = .dnsLoadConfig p := by
  by_cases h : cfg.ResolvConf = ""
  · cases h1 : w.dnsLoadConfig "resolv.conf" <;>
      simp [load_resolv_conf, dns_LoadConfig, ask, h, h1]
  · simp [load_resolv_conf, dns_LoadConfig, ask, h]

/-- Closed form of `run_httproxy` when every assembly step succeeds. -/
theorem run_httproxy_assembled (w : World) (cfg : Config)
    (h0 : (load_resolv_conf w cfg).res = .val none)
    (h1 : w.cryptNewDialer .DefaultTcpDialer cfg.Cipher cfg.Key = none)
    (h2 : w.msocksNewDialer (encDialer cfg) cfg.Server cfg.Username cfg.Password = none)
    (h3 : cfg.Blackfile ≠ "" →
      w.newFilteredDialer (tunnelDialer cfg).toDialer .DefaultTcpDialer cfg.Blackfile = none) :
    run_httproxy w cfg
      = ⟨(load_resolv_conf w cfg).trace ++ dialerSteps cfg ++ serveSteps cfg,
          (w.listenAndServe cfg.Listen (NewProxy (finalDialer cfg) (adminMux cfg))).toRes⟩ := by
  simp only [run_httproxy]
  generalize load_resolv_conf w cfg = R at *
  obtain ⟨tr, res⟩ := R
  simp only at h0
  subst h0
  simp only [encDialer, tunnelDialer, MsocksDialer.toDialer] at h2 h3
  by_cases hb : cfg.Blackfile = ""
  · simp [cryptconn_NewDialer, msocks_NewDialer, http_ListenAndServe, blocking, ask, h1, h2, hb,
      assertMsocks_toDialer, dialerSteps, serveSteps, finalDialer, adminMux, tunnelManager,
      tunnelDialer, encDialer, MsocksDialer.toDialer, Dialer.assertMsocks]
  · have h3' := h3 hb
    simp [cryptconn_NewDialer, msocks_NewDialer, ipfilter_NewFilteredDialer,
      http_ListenAndServe, blocking, ask, h1, h2, h3', hb,
      assertMsocks_toDialer, dialerSteps, serveSteps, finalDialer, adminMux, tunnelManager,
      tunnelDialer, encDialer, filteredDialer, MsocksDialer.toDialer, Dialer.assertMsocks]

/-- The resolver bootstrap hands no dialer to a proxy, registers no route and starts
no HTTP server. -/
theorem load_resolv_conf_quiet (w : World) (cfg : Config) :
    handedDialers (load_resolv_conf w cfg).trace = []
      ∧ registrations (load_resolv_conf w cfg).trace = []
      ∧ ∀ e ∈ (load_resolv_conf w cfg).trace, e.isListenAndServe = false := by
  by_cases h : cfg.ResolvConf = ""
  · cases h1 : w.dnsLoadConfig "resolv.conf" <;>
      simp [load_resolv_conf, dns_LoadConfig, ask, h, h1, handedDialers, registrations,
        Event.isListenAndServe]
  · simp [load_resolv_conf, dns_LoadConfig, ask, h, handedDialers, registrations,
      Event.isListenAndServe]

/-- C3: `run_httproxy` performs, in this order, the resolver bootstrap,
`cryptconn.NewDialer`, `msocks.NewDialer`, `ipfilter.NewFilteredDialer` (only when
`Blackfile` is non-empty), the registration of the administrative routes and
`http.ListenAndServe`; the first step that fails ends the run, its error is what
`run_httproxy` returns, and no later step is performed, so the server is not started.
When the resolver bootstrap fails the run consists of resolver loads only. -/
theorem run_httproxy_steps (w : World) (cfg : Config) :
    (∀ e ∈ (load_resolv_conf w cfg).trace, ∃ p, e = .dnsLoadConfig p)
      ∧ (∀ err, (load_resolv_conf w cfg).res = .val (some err) →
        run_httproxy w cfg = ⟨(load_resolv_conf w cfg).trace, .val (some err)⟩)
      ∧ ((load_resolv_conf w cfg).res = .val none →
          ∀ err, w.cryptNewDialer .DefaultTcpDialer cfg.Cipher cfg.Key = some err →
        run_httproxy w cfg
          = ⟨(load_resolv_conf w cfg).trace
              ++ [.cryptNewDialer .DefaultTcpDialer cfg.Cipher cfg.Key], .val (some err)⟩)
      ∧ ((load_resolv_conf w cfg).res = .val none →
          w.cryptNewDialer .DefaultTcpDialer cfg.Cipher cfg.Key = none →
          ∀ err, w.msocksNewDialer (encDialer cfg) cfg.Server cfg.Username cfg.Password
            = some err →
        run_httproxy w cfg
          = ⟨(load_resolv_conf w cfg).trace
              ++ [.cryptNewDialer .DefaultTcpDialer cfg.Cipher cfg.Key,
                  .msocksNewDialer (encDialer cfg) cfg.Server cfg.Username cfg.Password],
              .val (some err)⟩)
      ∧ ((load_resolv_conf w cfg).res = .val none →
          w.cryptNewDialer .DefaultTcpDialer cfg.Cipher cfg.Key = none →
          w.msocksNewDialer (encDialer cfg) cfg.Server cfg.Username cfg.Password = none →
          cfg.Blackfile ≠ "" →
          ∀ err, w.newFilteredDialer (tunnelDialer cfg).toDialer .DefaultTcpDialer cfg.Blackfile
            = some err →
        run_httproxy w cfg
          = ⟨(load_resolv_conf w cfg).trace
              ++ [.cryptNewDialer .DefaultTcpDialer cfg.Cipher cfg.Key,
                  .msocksNewDialer (encDialer cfg) cfg.Server cfg.Username cfg.Password,
                  .newFilteredDialer (tunnelDialer cfg).toDialer .DefaultTcpDialer
                    cfg.Blackfile],
              .val (some err)⟩)
      ∧ ((load_resolv_conf w cfg).res = .val none →
          w.cryptNewDialer .DefaultTcpDialer cfg.Cipher cfg.Key = none →
          w.msocksNewDialer (encDialer cfg) cfg.Server cfg.Username cfg.Password = none →
          cfg.Blackfile ≠ "" →
          w.newFilteredDialer (tunnelDialer cfg).toDialer .DefaultTcpDialer cfg.Blackfile
            = none →
        run_httproxy w cfg
          = ⟨(load_resolv_conf w cfg).trace
              ++ [.cryptNewDialer .DefaultTcpDialer cfg.Cipher cfg.Key,
                  .msocksNewDialer (encDialer cfg) cfg.Server cfg.Username cfg.Password,
                  .newFilteredDialer (tunnelDialer cfg).toDialer .DefaultTcpDialer
                    cfg.Blackfile,
                  .newServeMux,
                  .register (tunnelManager cfg),
                  .listenAndServe cfg.Listen (NewProxy (filteredDialer cfg) (adminMux cfg))],
              (w.listenAndServe cfg.Listen
                (NewProxy (filteredDialer cfg) (adminMux cfg))).toRes⟩)
      ∧ ((load_resolv_conf w cfg).res = .val none →
          w.cryptNewDialer .DefaultTcpDialer cfg.Cipher cfg.Key = none →
          w.msocksNewDialer (encDialer cfg) cfg.Server cfg.Username cfg.Password = none →
          cfg.Blackfile = "" →
        run_httproxy w cfg
          = ⟨(load_resolv_conf w cfg).trace
              ++ [.cryptNewDialer .DefaultTcpDialer cfg.Cipher cfg.Key,
                  .msocksNewDialer (encDialer cfg) cfg.Server cfg.Username cfg.Password,
                  .newServeMux,
                  .register (tunnelManager cfg),
                  .listenAndServe cfg.Listen
                    (NewProxy (tunnelDialer cfg).toDialer (adminMux cfg))],
              (w.listenAndServe cfg.Listen
                (NewProxy (tunnelDialer cfg).toDialer (adminMux cfg))).toRes⟩) := by
  refine ⟨(load_resolv_conf_shape w cfg).2, ?_, ?_, ?_, ?_, ?_, ?_⟩
  · intro err h0
    simp only [run_httproxy]
    generalize load_resolv_conf w cfg = R at *
    obtain ⟨tr, res⟩ := R
    simp only at h0
    subst h0
    simp
  · intro h0 err h1
    simp only [run_httproxy]
    generalize load_resolv_conf w cfg = R at *
    obtain ⟨tr, res⟩ := R
    simp only at h0
    subst h0
    simp [cryptconn_NewDialer, ask, h1]
  · intro h0 h1 err h2
    simp only [run_httproxy]
    generalize load_resolv_conf w cfg = R at *
    obtain ⟨tr, res⟩ := R
    simp only at h0
    subst h0
    simp only [encDialer] at h2
    simp [cryptconn_NewDialer, msocks_NewDialer, ask, h1, h2, encDialer]
  · intro h0 h1 h2 hb err h3
    simp only [run_httproxy]
    generalize load_resolv_conf w cfg = R at *
    obtain ⟨tr, res⟩ := R
    simp only at h0
    subst h0
    simp only [encDialer, tunnelDialer, MsocksDialer.toDialer] at h2 h3
    simp [cryptconn_NewDialer, msocks_NewDialer, ipfilter_NewFilteredDialer, ask, h1, h2, h3,
      hb, encDialer, tunnelDialer, MsocksDialer.toDialer, Dialer.assertMsocks]
  · intro h0 h1 h2 hb h3
    rw [run_httproxy_assembled w cfg h0 h1 h2 (fun _ => h3)]
    simp [dialerSteps, serveSteps, finalDialer, hb]
  · intro h0 h1 h2 hb
    rw [run_httproxy_assembled w cfg h0 h1 h2 (fun h => absurd hb h)]
    simp [dialerSteps, serveSteps, finalDialer, hb]

/-- C1: when every assembly step of `run_httproxy` succeeds, exactly one dialer is
handed to the proxy handler that is served: the tunnel dialer
`msocks.NewDialer(cryptconn.NewDialer(DefaultTcpDialer, Cipher, Key), Server, Username,
Password)` when `Blackfile` is empty, and
`ipfilter.NewFilteredDialer(that tunnel dialer, DefaultTcpDialer, Blackfile)` otherwise.
Under the filter's contract a blacklisted address is then dialed by the plain
`DefaultTcpDialer` and every other address by the tunnel dialer over the encrypting
dialer. -/
theorem run_httproxy_dialer (w : World) (cfg : Config)
    (h0 : (load_resolv_conf w cfg).res = .val none)
    (h1 : w.cryptNewDialer .DefaultTcpDialer cfg.Cipher cfg.Key = none)
    (h2 : w.msocksNewDialer (.crypt .DefaultTcpDialer cfg.Cipher cfg.Key)
      cfg.Server cfg.Username cfg.Password = none)
    (h3 : cfg.Blackfile ≠ "" →
      w.newFilteredDialer
        (.msocks (.crypt .DefaultTcpDialer cfg.Cipher cfg.Key)
          cfg.Server cfg.Username cfg.Password)
        .DefaultTcpDialer cfg.Blackfile = none) :
    (cfg.Blackfile = "" →
        handedDialers (run_httproxy w cfg).trace
          = [.msocks (.crypt .DefaultTcpDialer cfg.Cipher cfg.Key)
              cfg.Server cfg.Username cfg.Password])
      ∧ (cfg.Blackfile ≠ "" →
        handedDialers (run_httproxy w cfg).trace
          = [.filtered
              (.msocks (.crypt .DefaultTcpDialer cfg.Cipher cfg.Key)
                cfg.Server cfg.Username cfg.Password)
              .DefaultTcpDialer cfg.Blackfile])
      ∧ (∀ d ∈ handedDialers (run_httproxy w cfg).trace,
          ∀ (blacklisted : String → String → Bool) (addr : String),
            cfg.Blackfile ≠ "" → blacklisted cfg.Blackfile addr = true →
              d.delegate blacklisted addr = .DefaultTcpDialer)
      ∧ (∀ d ∈ handedDialers (run_httproxy w cfg).trace,
          ∀ (blacklisted : String → String → Bool) (addr : String),
            (cfg.Blackfile = "" ∨ blacklisted cfg.Blackfile addr = false) →
              d.delegate blacklisted addr
                = .msocks (.crypt .DefaultTcpDialer cfg.Cipher cfg.Key)
                    cfg.Server cfg.Username cfg.Password) := by
  have key := run_httproxy_assembled w cfg h0 h1 h2 h3
  have hq := (load_resolv_conf_quiet w cfg).1
  have hd : handedDialers (run_httproxy w cfg).trace = [finalDialer cfg] := by
    rw [key]
    simp only [handedDialers] at hq
    simp only [handedDialers, List.filterMap_append, hq]
    by_cases hb : cfg.Blackfile = "" <;> simp [dialerSteps, serveSteps, NewProxy, hb]
  rw [hd]
  refine ⟨?_, ?_, ?_, ?_⟩
  · intro hb
    simp [finalDialer, hb, tunnelDialer, encDialer, MsocksDialer.toDialer]
  · intro hb
    simp [finalDialer, hb, filteredDialer, tunnelDialer, encDialer, MsocksDialer.toDialer]
  · intro d hd' blacklisted addr hb hbl
    simp only [List.mem_singleton] at hd'
    subst hd'
    simp [finalDialer, hb, filteredDialer, Dialer.delegate, hbl]
  · intro d hd' blacklisted addr hcase
    simp only [List.mem_singleton] at hd'
    subst hd'
    rcases hcase with hb | hbl
    · simp [finalDialer, hb, tunnelDialer, encDialer, MsocksDialer.toDialer, Dialer.delegate]
    · by_cases hb : cfg.Blackfile = ""
      · simp [finalDialer, hb, tunnelDialer, encDialer, MsocksDialer.toDialer,
          Dialer.delegate]
      · simp [finalDialer, hb, filteredDialer, tunnelDialer, encDialer,
          MsocksDialer.toDialer, Dialer.delegate, hbl]

/-- C8: when the assembly steps of `run_httproxy` succeed, the administrative routes
are registered exactly once, by the manager built from the concrete tunnel dialer that
`msocks.NewDialer` returned (the same with and without `Blackfile`, and different from
the filtered dialer); the registration comes before the only start of the HTTP server,
and the router the served handler holds is the fresh router carrying that
registration. -/
theorem run_httproxy_admin (w : World) (cfg : Config)
    (h0 : (load_resolv_conf w cfg).res = .val none)
    (h1 : w.cryptNewDialer .DefaultTcpDialer cfg.Cipher cfg.Key = none)
    (h2 : w.msocksNewDialer (.crypt .DefaultTcpDialer cfg.Cipher cfg.Key)
      cfg.Server cfg.Username cfg.Password = none)
    (h3 : cfg.Blackfile ≠ "" →
      w.newFilteredDialer
        (.msocks (.crypt .DefaultTcpDialer cfg.Cipher cfg.Key)
          cfg.Server cfg.Username cfg.Password)
        .DefaultTcpDialer cfg.Blackfile = none) :
    registrations (run_httproxy w cfg).trace
        = [NewMsocksManager
            ⟨.crypt .DefaultTcpDialer cfg.Cipher cfg.Key, cfg.Server, cfg.Username,
              cfg.Password⟩]
      ∧ (∃ pre handler,
          (run_httproxy w cfg).trace
            = pre ++ [.newServeMux,
                .register (NewMsocksManager
                  ⟨.crypt .DefaultTcpDialer cfg.Cipher cfg.Key, cfg.Server, cfg.Username,
                    cfg.Password⟩),
                .listenAndServe cfg.Listen handler]
          ∧ (∀ e ∈ pre, e.isListenAndServe = false)
          ∧ handler.mux.registered
            = [NewMsocksManager
                ⟨.crypt .DefaultTcpDialer cfg.Cipher cfg.Key, cfg.Server, cfg.Username,
                  cfg.Password⟩]
          ∧ handedDialers (run_httproxy w cfg).trace = [handler.dialer])
      ∧ (∀ m ∈ registrations (run_httproxy w cfg).trace,
          ∀ d ∈ handedDialers (run_httproxy w cfg).trace,
            cfg.Blackfile ≠ "" → m.ndialer.toDialer ≠ d) := by
  have key := run_httproxy_assembled w cfg h0 h1 h2 h3
  obtain ⟨hq1, hq2, hq3⟩ := load_resolv_conf_quiet w cfg
  have hd : handedDialers (run_httproxy w cfg).trace = [finalDialer cfg] := by
    rw [key]
    simp only [handedDialers] at hq1
    simp only [handedDialers, List.filterMap_append, hq1]
    by_cases hb : cfg.Blackfile = "" <;> simp [dialerSteps, serveSteps, NewProxy, hb]
  have hr : registrations (run_httproxy w cfg).trace = [tunnelManager cfg] := by
    rw [key]
    simp only [registrations] at hq2
    simp only [registrations, List.filterMap_append, hq2]
    by_cases hb : cfg.Blackfile = "" <;> simp [dialerSteps, serveSteps, hb]
  refine ⟨?_, ?_, ?_⟩
  · rw [hr]
    simp [tunnelManager, tunnelDialer, encDialer]
  · refine ⟨(load_resolv_conf w cfg).trace ++ dialerSteps cfg,
      NewProxy (finalDialer cfg) (adminMux cfg), ?_, ?_, ?_, ?_⟩
    · rw [key]
      simp [serveSteps, tunnelManager, tunnelDialer, encDialer]
    · intro e he
      rcases List.mem_append.1 he with he | he
      · exact hq3 e he
      · have hsteps : ∀ e' ∈ dialerSteps cfg, e'.isListenAndServe = false := by
          by_cases hb : cfg.Blackfile = "" <;> simp [dialerSteps, hb, Event.isListenAndServe]
        exact hsteps e he
    · simp [NewProxy, adminMux, tunnelManager, tunnelDialer, encDialer,
        MsocksManager.Register, ServeMux.new]
    · rw [hd]
      simp [NewProxy]
  · intro m hm d hd' hb
    rw [hr] at hm
    rw [hd] at hd'
    simp only [List.mem_singleton] at hm hd'
    subst hm
    subst hd'
    simp [finalDialer, hb, filteredDialer, tunnelManager, NewMsocksManager, tunnelDialer,
      MsocksDialer.toDialer]

/-! ## Startup and dispatch -/

/-- Closed form of `LoadConfig`. -/
theorem LoadConfig_eq (w : World) :
    LoadConfig w
      = match w.osOpen w.configfile with
        | some err => ⟨[.osOpen w.configfile], .val (Config.zero, some err)⟩
        | none => ⟨[.osOpen w.configfile, .jsonDecode w.configfile, .fileClose w.configfile],
            .val (w.jsonDecode w.configfile)⟩ := by
  unfold LoadConfig
  cases h : w.osOpen w.configfile
  · rcases hj : w.jsonDecode w.configfile with ⟨c, e⟩
    simp [ask, emit, h, hj]
  · simp [ask, h]

/-- Closed form of `SetLogging`. -/
theorem SetLogging_eq (w : World) (cfg : Config) :
    SetLogging w cfg
      = if cfg.Logfile ≠ "" then
          match w.osOpenFile cfg.Logfile with
          | some err => ⟨[.osOpenFile cfg.Logfile, .log .critical err.msg], .halt (.osExit 1)⟩
          | none =>
            match w.logLevel cfg.Loglevel with
            | .error err =>
              ⟨[.osOpenFile cfg.Logfile, .setBackend (.file cfg.Logfile), .setFormatter,
                .logLevel cfg.Loglevel], .halt (.panicked err.msg)⟩
            | .ok lv =>
              ⟨[.osOpenFile cfg.Logfile, .setBackend (.file cfg.Logfile), .setFormatter,
                .logLevel cfg.Loglevel, .setLevel lv], .val none⟩
        else
          match w.logLevel cfg.Loglevel with
          | .error err =>
            ⟨[.setBackend .stdout, .setFormatter, .logLevel cfg.Loglevel],
              .halt (.panicked err.msg)⟩
          | .ok lv =>
            ⟨[.setBackend .stdout, .setFormatter, .logLevel cfg.Loglevel, .setLevel lv],
              .val none⟩ := by
  unfold SetLogging
  by_cases hf : cfg.Logfile = ""
  · cases hl : w.logLevel cfg.Loglevel <;> simp [ask, emit, halt, hf, hl]
  · cases ho : w.osOpenFile cfg.Logfile
    · cases hl : w.logLevel cfg.Loglevel <;> simp [ask, emit, halt, hf, hl, ho]
    · simp [ask, emit, halt, log_Fatal, hf, ho]

/-- Startup opens no network resource and calls no assembler. -/
theorem startup_quiet (w : World) (cfg : Config) :
    (∀ e ∈ (LoadConfig w).trace, e.isResource = false ∧ e.isCall = false)
      ∧ (∀ e ∈ (SetLogging w cfg).trace, e.isResource = false ∧ e.isCall = false) := by
  constructor
  · rw [LoadConfig_eq]
    cases w.osOpen w.configfile <;> simp [Event.isResource, Event.isCall]
  · rw [SetLogging_eq]
    by_cases hf : cfg.Logfile = ""
    · cases w.logLevel cfg.Loglevel <;> simp [hf, Event.isResource, Event.isCall]
    · cases w.osOpenFile cfg.Logfile <;> cases w.logLevel cfg.Loglevel <;>
        simp [hf, Event.isResource, Event.isCall]

/-- A startup that succeeds reports no error. -/
theorem startup_clean (w : World) (cfg : Config)
    (hlog : (SetLogging w cfg).res = .val none) :
    (∀ e ∈ (LoadConfig w).trace, e.isErrorReport = false ∧ e.isErrorLog = false)
      ∧ (∀ e ∈ (SetLogging w cfg).trace, e.isErrorReport = false ∧ e.isErrorLog = false) := by
  constructor
  · rw [LoadConfig_eq]
    cases w.osOpen w.configfile <;> simp [Event.isErrorReport, Event.isErrorLog]
  · rw [SetLogging_eq] at hlog ⊢
    by_cases hf : cfg.Logfile = ""
    · cases hl : w.logLevel cfg.Loglevel <;>
        simp_all [Event.isErrorReport, Event.isErrorLog]
    · cases ho : w.osOpenFile cfg.Logfile <;> cases hl : w.logLevel cfg.Loglevel <;>
        simp_all [Event.isErrorReport, Event.isErrorLog]

/-- `SetLogging` either succeeds with no error or never returns. -/
theorem SetLogging_res (w : World) (cfg : Config) :
    (SetLogging w cfg).res = .val none ∨ ∃ h, (SetLogging w cfg).res = .halt h := by
  rw [SetLogging_eq]
  by_cases hf : cfg.Logfile = ""
  · cases w.logLevel cfg.Loglevel <;> simp [hf]
  · cases w.osOpenFile cfg.Logfile <;> cases w.logLevel cfg.Loglevel <;> simp [hf]

/-- When logging setup never returns, `main` ends there. -/
theorem main_logging_halt (w : World) (cfg : Config) (h : Halt)
    (hload : (LoadConfig w).res = .val (cfg, none))
    (hlog : (SetLogging w cfg).res = .halt h) :
    main w = ⟨(LoadConfig w).trace ++ (SetLogging w cfg).trace, .halt h⟩ := by
  simp only [main]
  generalize LoadConfig w = L at *
  obtain ⟨ltr, lres⟩ := L
  simp only at hload
  subst hload
  simp only [bind_val]
  generalize SetLogging w cfg = S at *
  obtain ⟨str, sres⟩ := S
  simp only at hlog
  subst hlog
  simp

/-- Closed form of `main` in stop mode, once startup has succeeded. -/
theorem main_stop_eq (w : World) (cfg : Config)
    (hload : (LoadConfig w).res = .val (cfg, none))
    (hlog : (SetLogging w cfg).res = .val none) (hmode : cfg.Mode = "stop") :
    main w
      = ⟨(LoadConfig w).trace ++ (SetLogging w cfg).trace
          ++ [.log .notice "stop mode start.", .log .info "server stopped in stop mode"],
          .val ()⟩ := by
  simp only [main]
  generalize LoadConfig w = L at *
  obtain ⟨ltr, lres⟩ := L
  simp only at hload
  subst hload
  simp only [bind_val]
  generalize SetLogging w cfg = S at *
  obtain ⟨str, sres⟩ := S
  simp only at hlog
  subst hlog
  simp [emit, hmode]

/-- Closed form of `main` for a mode other than stop, server and http, once startup
has succeeded. -/
theorem main_unsupported_eq (w : World) (cfg : Config)
    (hload : (LoadConfig w).res = .val (cfg, none))
    (hlog : (SetLogging w cfg).res = .val none)
    (h1 : cfg.Mode ≠ "stop") (h2 : cfg.Mode ≠ "server") (h3 : cfg.Mode ≠ "http") :
    main w
      = ⟨(LoadConfig w).trace ++ (SetLogging w cfg).trace
          ++ [.log .notice (cfg.Mode ++ " mode start."), .log .warning "not supported mode.",
              .log .info "server stopped"], .val ()⟩ := by
  simp only [main]
  generalize LoadConfig w = L at *
  obtain ⟨ltr, lres⟩ := L
  simp only at hload
  subst hload
  simp only [bind_val]
  generalize SetLogging w cfg = S at *
  obtain ⟨str, sres⟩ := S
  simp only at hlog
  subst hlog
  simp [emit, h1, h2, h3]

/-- Closed form of `main` in server mode, once startup has succeeded. -/
theorem main_server_eq (w : World) (cfg : Config)
    (hload : (LoadConfig w).res = .val (cfg, none))
    (hlog : (SetLogging w cfg).res = .val none) (hmode : cfg.Mode = "server") :
    main w
      = match (run_server w cfg).res with
        | .val none =>
          ⟨(LoadConfig w).trace ++ (SetLogging w cfg).trace
              ++ [.log .notice "server mode start.", .call .run_server]
              ++ (run_server w cfg).trace ++ [.log .info "server stopped"], .val ()⟩
        | .val (some err) =>
          ⟨(LoadConfig w).trace ++ (SetLogging w cfg).trace
              ++ [.log .notice "server mode start.", .call .run_server]
              ++ (run_server w cfg).trace
              ++ [.log .error err.msg, .log .info "server stopped"], .val ()⟩
        | .halt h =>
          ⟨(LoadConfig w).trace ++ (SetLogging w cfg).trace
              ++ [.log .notice "server mode start.", .call .run_server]
              ++ (run_server w cfg).trace, .halt h⟩ := by
  simp only [main]
  generalize LoadConfig w = L at *
  obtain ⟨ltr, lres⟩ := L
  simp only at hload
  subst hload
  simp only [bind_val]
  generalize SetLogging w cfg = S at *
  obtain ⟨str, sres⟩ := S
  simp only at hlog
  subst hlog
  generalize run_server w cfg = A at *
  obtain ⟨atr, ares⟩ := A
  rcases ares with (_ | err) | h <;> simp [emit, hmode]

/-- Closed form of `main` in http mode, once startup has succeeded. -/
theorem main_http_eq (w : World) (cfg : Config)
    (hload : (LoadConfig w).res = .val (cfg, none))
    (hlog : (SetLogging w cfg).res = .val none) (hmode : cfg.Mode = "http") :
    main w
      = match (run_httproxy w cfg).res with
        | .val none =>
          ⟨(LoadConfig w).trace ++ (SetLogging w cfg).trace
              ++ [.log .notice "http mode start.", .call .run_httproxy]
              ++ (run_httproxy w cfg).trace ++ [.log .info "server stopped"], .val ()⟩
        | .val (some err) =>
          ⟨(LoadConfig w).trace ++ (SetLogging w cfg).trace
              ++ [.log .notice "http mode start.", .call .run_httproxy]
              ++ (run_httproxy w cfg).trace
              ++ [.log .error err.msg, .log .info "server stopped"], .val ()⟩
        | .halt h =>
          ⟨(LoadConfig w).trace ++ (SetLogging w cfg).trace
              ++ [.log .notice "http mode start.", .call .run_httproxy]
              ++ (run_httproxy w cfg).trace, .halt h⟩ := by
  simp only [main]
  generalize LoadConfig w = L at *
  obtain ⟨ltr, lres⟩ := L
  simp only at hload
  subst hload
  simp only [bind_val]
  generalize SetLogging w cfg = S at *
  obtain ⟨str, sres⟩ := S
  simp only at hlog
  subst hlog
  generalize run_httproxy w cfg = A at *
  obtain ⟨atr, ares⟩ := A
  rcases ares with (_ | err) | h <;> simp [emit, hmode]

/-- The events of `run_server` are collaborator calls: no assembler call, no error log. -/
theorem run_server_quiet (w : World) (cfg : Config) :
    assemblerCalls (run_server w cfg).trace = [] ∧ errorLogs (run_server w cfg).trace = [] := by
  cases h1 : w.netListen "tcp" cfg.Listen <;>
    cases h2 : w.cryptNewListener (.tcp "tcp" cfg.Listen) cfg.Cipher cfg.Key <;>
    cases h3 : w.msocksNewService cfg.Auth .DefaultTcpDialer <;>
    simp [run_server, net_Listen, cryptconn_NewListener, msocks_NewService, Service.Serve,
      blocking, ask, h1, h2, h3, assemblerCalls, errorLogs, Event.isCall, Event.isErrorLog]

/-- The events of `run_httproxy` are collaborator calls: no assembler call, no error
log. -/
theorem run_httproxy_quiet (w : World) (cfg : Config) :
    assemblerCalls (run_httproxy w cfg).trace = []
      ∧ errorLogs (run_httproxy w cfg).trace = [] := by
  have hs : assemblerCalls (load_resolv_conf w cfg).trace = []
      ∧ errorLogs (load_resolv_conf w cfg).trace = [] := by
    simp only [assemblerCalls, errorLogs, List.filter_eq_nil_iff]
    constructor <;> intro e he <;> obtain ⟨p, rfl⟩ := (load_resolv_conf_shape w cfg).2 e he <;>
      simp [Event.isCall, Event.isErrorLog]
  obtain ⟨r, hr⟩ := (load_resolv_conf_shape w cfg).1
  simp only [run_httproxy]
  generalize load_resolv_conf w cfg = R at *
  obtain ⟨tr, res⟩ := R
  simp only at hr hs
  subst hr
  obtain ⟨hs1, hs2⟩ := hs
  simp only [assemblerCalls, errorLogs] at hs1 hs2
  cases r
  · cases h1 : w.cryptNewDialer .DefaultTcpDialer cfg.Cipher cfg.Key <;>
      cases h2 : w.msocksNewDialer (.crypt .DefaultTcpDialer cfg.Cipher cfg.Key)
        cfg.Server cfg.Username cfg.Password <;>
      by_cases hb : cfg.Blackfile = "" <;>
      cases h3 : w.newFilteredDialer
        (.msocks (.crypt .DefaultTcpDialer cfg.Cipher cfg.Key)
          cfg.Server cfg.Username cfg.Password) .DefaultTcpDialer cfg.Blackfile <;>
      simp [cryptconn_NewDialer, msocks_NewDialer, ipfilter_NewFilteredDialer,
        http_ListenAndServe, blocking, ask, h1, h2, h3, hb, hs1, hs2, assemblerCalls, errorLogs,
        Event.isCall, Event.isErrorLog, MsocksDialer.toDialer, Dialer.assertMsocks]
  · simp [assemblerCalls, errorLogs, hs1, hs2]

/-- Startup performs no assembler call; a startup that succeeds logs no error. -/
theorem startup_filters (w : World) (cfg : Config) :
    List.filter Event.isCall (LoadConfig w).trace = []
      ∧ List.filter Event.isCall (SetLogging w cfg).trace = []
      ∧ List.filter Event.isErrorLog (LoadConfig w).trace = []
      ∧ ((SetLogging w cfg).res = .val none →
          List.filter Event.isErrorLog (SetLogging w cfg).trace = []) := by
  obtain ⟨hq1, hq2⟩ := startup_quiet w cfg
  refine ⟨?_, ?_, ?_, fun hlog => ?_⟩
  · rw [List.filter_eq_nil_iff]
    intro e he
    simp [(hq1 e he).2]
  · rw [List.filter_eq_nil_iff]
    intro e he
    simp [(hq2 e he).2]
  · rw [LoadConfig_eq]
    cases w.osOpen w.configfile <;> simp [Event.isErrorLog]
  · rw [List.filter_eq_nil_iff]
    intro e he
    simp [((startup_clean w cfg hlog).2 e he).2]

/-- When logging setup never returns, `main` has called no assembler and opened no
network resource. -/
theorem main_logging_halt_quiet (w : World) (cfg : Config) (h : Halt)
    (hload : (LoadConfig w).res = .val (cfg, none))
    (hlog : (SetLogging w cfg).res = .halt h) :
    assemblerCalls (main w).trace = [] ∧ ∀ e ∈ (main w).trace, e.isResource = false := by
  obtain ⟨hq1, hq2⟩ := startup_quiet w cfg
  obtain ⟨hf1, hf2, -, -⟩ := startup_filters w cfg
  rw [main_logging_halt w cfg h hload hlog]
  refine ⟨by simp [assemblerCalls, hf1, hf2], ?_⟩
  intro e he
  rcases List.mem_append.1 he with he | he
  · exact (hq1 e he).1
  · exact (hq2 e he).1

/-- C6 (amended): for a loaded configuration with `Mode = "stop"`, `main` calls no
assembler and performs no listener, dialer, service, serve or resolver-load step; and
when logging setup succeeds it logs the start notice and the stop-mode line, reports no
error and returns. -/
theorem main_stop (w : World) (cfg : Config)
    (hload : (LoadConfig w).res = .val (cfg, none)) (hmode : cfg.Mode = "stop") :
    assemblerCalls (main w).trace = []
      ∧ (∀ e ∈ (main w).trace, e.isResource = false)
      ∧ ((SetLogging w cfg).res = .val none →
          main w
            = ⟨(LoadConfig w).trace ++ (SetLogging w cfg).trace
                ++ [.log .notice "stop mode start.",
                    .log .info "server stopped in stop mode"], .val ()⟩
          ∧ ∀ e ∈ (main w).trace, e.isErrorReport = false) := by
  obtain ⟨hq1, hq2⟩ := startup_quiet w cfg
  rcases SetLogging_res w cfg with hlog | ⟨h, hlog⟩
  · have hc := startup_clean w cfg hlog
    rw [main_stop_eq w cfg hload hlog hmode]
    refine ⟨?_, ?_, fun _ => ⟨rfl, ?_⟩⟩
    · simp only [assemblerCalls, List.filter_eq_nil_iff]
      intro e he
      simp only [List.mem_append, List.mem_cons, List.mem_singleton, List.not_mem_nil,
        or_false] at he
      rcases he with (he | he) | he | he
      · simp [(hq1 e he).2]
      · simp [(hq2 e he).2]
      · simp [he, Event.isCall]
      · simp [he, Event.isCall]
    · intro e he
      simp only [List.mem_append, List.mem_cons, List.mem_singleton, List.not_mem_nil,
        or_false] at he
      rcases he with (he | he) | he | he
      · exact (hq1 e he).1
      · exact (hq2 e he).1
      · simp [he, Event.isResource]
      · simp [he, Event.isResource]
    · intro e he
      simp only [List.mem_append, List.mem_cons, List.mem_singleton, List.not_mem_nil,
        or_false] at he
      rcases he with (he | he) | he | he
      · exact (hc.1 e he).1
      · exact (hc.2 e he).1
      · simp [he, Event.isErrorReport]
      · simp [he, Event.isErrorReport]
  · rw [main_logging_halt w cfg h hload hlog]
    refine ⟨?_, ?_, fun hv => ?_⟩
    · simp only [assemblerCalls, List.filter_eq_nil_iff]
      intro e he
      rcases List.mem_append.1 he with he | he
      · simp [(hq1 e he).2]
      · simp [(hq2 e he).2]
    · intro e he
      rcases List.mem_append.1 he with he | he
      · exact (hq1 e he).1
      · exact (hq2 e he).1
    · rw [hlog] at hv
      cases hv

/-- C7 (amended): for a loaded configuration whose `Mode` is none of stop, server and
http, `main` calls no assembler and opens no network resource; and when logging setup
succeeds it logs the start notice, the warning and the final `server stopped` line,
reports no error and returns. -/
theorem main_unsupported (w : World) (cfg : Config)
    (hload : (LoadConfig w).res = .val (cfg, none))
    (h1 : cfg.Mode ≠ "stop") (h2 : cfg.Mode ≠ "server") (h3 : cfg.Mode ≠ "http") :
    assemblerCalls (main w).trace = []
      ∧ (∀ e ∈ (main w).trace, e.isResource = false)
      ∧ ((SetLogging w cfg).res = .val none →
          main w
            = ⟨(LoadConfig w).trace ++ (SetLogging w cfg).trace
                ++ [.log .notice (cfg.Mode ++ " mode start."),
                    .log .warning "not supported mode.",
                    .log .info "server stopped"], .val ()⟩
          ∧ ∀ e ∈ (main w).trace, e.isErrorReport = false) := by
  obtain ⟨hq1, hq2⟩ := startup_quiet w cfg
  obtain ⟨hf1, hf2, -, -⟩ := startup_filters w cfg
  rcases SetLogging_res w cfg with hlog | ⟨h, hlog⟩
  · have hc := startup_clean w cfg hlog
    rw [main_unsupported_eq w cfg hload hlog h1 h2 h3]
    refine ⟨?_, ?_, fun _ => ⟨rfl, ?_⟩⟩
    · simp [assemblerCalls, hf1, hf2, Event.isCall]
    · intro e he
      simp only [List.mem_append, List.mem_cons, List.mem_singleton, List.not_mem_nil,
        or_false] at he
      rcases he with (he | he) | he | he | he
      · exact (hq1 e he).1
      · exact (hq2 e he).1
      · simp [he, Event.isResource]
      · simp [he, Event.isResource]
      · simp [he, Event.isResource]
    · intro e he
      simp only [List.mem_append, List.mem_cons, List.mem_singleton, List.not_mem_nil,
        or_false] at he
      rcases he with (he | he) | he | he | he
      · exact (hc.1 e he).1
      · exact (hc.2 e he).1
      · simp [he, Event.isErrorReport]
      · simp [he, Event.isErrorReport]
      · simp [he, Event.isErrorReport]
  · obtain ⟨ha, hb⟩ := main_logging_halt_quiet w cfg h hload hlog
    refine ⟨ha, hb, fun hv => ?_⟩
    rw [hlog] at hv
    cases hv

/-- C9: in a run of `main` that reaches mode dispatch, at most one assembler call is
made; when the chosen assembler returns an error, that error is logged exactly once at
error severity, right before the final `server stopped` line; when it returns no error,
and in an unsupported mode, no error is logged and the run ends with the
`server stopped` line; stop mode ends with its own stopped line. -/
theorem main_dispatch (w : World) (cfg : Config)
    (hload : (LoadConfig w).res = .val (cfg, none))
    (hlog : (SetLogging w cfg).res = .val none) :
    (assemblerCalls (main w).trace).length ≤ 1
      ∧ (cfg.Mode = "server" →
          assemblerCalls (main w).trace = [.call .run_server]
          ∧ (∀ err, (run_server w cfg).res = .val (some err) →
              (main w).res = .val ()
              ∧ errorLogs (main w).trace = [.log .error err.msg]
              ∧ ∃ pre, (main w).trace
                  = pre ++ [.log .error err.msg, .log .info "server stopped"])
          ∧ ((run_server w cfg).res = .val none →
              (main w).res = .val ()
              ∧ errorLogs (main w).trace = []
              ∧ ∃ pre, (main w).trace = pre ++ [.log .info "server stopped"]))
      ∧ (cfg.Mode = "http" →
          assemblerCalls (main w).trace = [.call .run_httproxy]
          ∧ (∀ err, (run_httproxy w cfg).res = .val (some err) →
              (main w).res = .val ()
              ∧ errorLogs (main w).trace = [.log .error err.msg]
              ∧ ∃ pre, (main w).trace
                  = pre ++ [.log .error err.msg, .log .info "server stopped"])
          ∧ ((run_httproxy w cfg).res = .val none →
              (main w).res = .val ()
              ∧ errorLogs (main w).trace = []
              ∧ ∃ pre, (main w).trace = pre ++ [.log .info "server stopped"]))
      ∧ (cfg.Mode ≠ "stop" → cfg.Mode ≠ "server" → cfg.Mode ≠ "http" →
          assemblerCalls (main w).trace = []
          ∧ (main w).res = .val ()
          ∧ errorLogs (main w).trace = []
          ∧ ∃ pre, (main w).trace = pre ++ [.log .info "server stopped"])
      ∧ (cfg.Mode = "stop" →
          assemblerCalls (main w).trace = []
          ∧ (main w).res = .val ()
          ∧ errorLogs (main w).trace = []
          ∧ ∃ pre, (main w).trace = pre ++ [.log .info "server stopped in stop mode"]) := by
  obtain ⟨hf1, hf2, hf3, hf4⟩ := startup_filters w cfg
  have hf4 := hf4 hlog
  obtain ⟨hs1, hs2⟩ := run_server_quiet w cfg
  obtain ⟨hp1, hp2⟩ := run_httproxy_quiet w cfg
  simp only [assemblerCalls, errorLogs] at hs1 hs2 hp1 hp2
  have hserver : cfg.Mode = "server" →
      assemblerCalls (main w).trace = [.call .run_server]
      ∧ (∀ err, (run_server w cfg).res = .val (some err) →
          (main w).res = .val ()
          ∧ errorLogs (main w).trace = [.log .error err.msg]
          ∧ ∃ pre, (main w).trace
              = pre ++ [.log .error err.msg, .log .info "server stopped"])
      ∧ ((run_server w cfg).res = .val none →
          (main w).res = .val ()
          ∧ errorLogs (main w).trace = []
          ∧ ∃ pre, (main w).trace = pre ++ [.log .info "server stopped"]) := by
    intro hmode
    rw [main_server_eq w cfg hload hlog hmode]
    refine ⟨?_, ?_, ?_⟩
    · rcases (run_server w cfg).res with (_ | err) | h <;>
        simp [assemblerCalls, hf1, hf2, hs1, Event.isCall]
    · intro err hr
      simp only [hr]
      refine ⟨trivial, ?_, ⟨(LoadConfig w).trace ++ (SetLogging w cfg).trace
        ++ [.log .notice "server mode start.", .call .run_server] ++ (run_server w cfg).trace, ?_⟩⟩
      · simp [errorLogs, hf3, hf4, hs2, Event.isErrorLog]
      · simp
    · intro hr
      simp only [hr]
      refine ⟨trivial, ?_, ⟨(LoadConfig w).trace ++ (SetLogging w cfg).trace
        ++ [.log .notice "server mode start.", .call .run_server] ++ (run_server w cfg).trace, ?_⟩⟩
      · simp [errorLogs, hf3, hf4, hs2, Event.isErrorLog]
      · simp
  have hhttp : cfg.Mode = "http" →
      assemblerCalls (main w).trace = [.call .run_httproxy]
      ∧ (∀ err, (run_httproxy w cfg).res = .val (some err) →
          (main w).res = .val ()
          ∧ errorLogs (main w).trace = [.log .error err.msg]
          ∧ ∃ pre, (main w).trace
              = pre ++ [.log .error err.msg, .log .info "server stopped"])
      ∧ ((run_httproxy w cfg).res = .val none →
          (main w).res = .val ()
          ∧ errorLogs (main w).trace = []
          ∧ ∃ pre, (main w).trace = pre ++ [.log .info "server stopped"]) := by
    intro hmode
    rw [main_http_eq w cfg hload hlog hmode]
    refine ⟨?_, ?_, ?_⟩
    · rcases (run_httproxy w cfg).res with (_ | err) | h <;>
        simp [assemblerCalls, hf1, hf2, hp1, Event.isCall]
    · intro err hr
      simp only [hr]
      refine ⟨trivial, ?_, ⟨(LoadConfig w).trace ++ (SetLogging w cfg).trace
        ++ [.log .notice "http mode start.", .call .run_httproxy] ++ (run_httproxy w cfg).trace, ?_⟩⟩
      · simp [errorLogs, hf3, hf4, hp2, Event.isErrorLog]
      · simp
    · intro hr
      simp only [hr]
      refine ⟨trivial, ?_, ⟨(LoadConfig w).trace ++ (SetLogging w cfg).trace
        ++ [.log .notice "http mode start.", .call .run_httproxy] ++ (run_httproxy w cfg).trace, ?_⟩⟩
      · simp [errorLogs, hf3, hf4, hp2, Event.isErrorLog]
      · simp
  have hother : cfg.Mode ≠ "stop" → cfg.Mode ≠ "server" → cfg.Mode ≠ "http" →
      assemblerCalls (main w).trace = []
      ∧ (main w).res = .val ()
      ∧ errorLogs (main w).trace = []
      ∧ ∃ pre, (main w).trace = pre ++ [.log .info "server stopped"] := by
    intro h1 h2 h3
    rw [main_unsupported_eq w cfg hload hlog h1 h2 h3]
    refine ⟨?_, rfl, ?_, ⟨(LoadConfig w).trace ++ (SetLogging w cfg).trace
      ++ [.log .notice (cfg.Mode ++ " mode start."), .log .warning "not supported mode."], ?_⟩⟩
    · simp [assemblerCalls, hf1, hf2, Event.isCall]
    · simp [errorLogs, hf3, hf4, Event.isErrorLog]
    · simp
  have hstop : cfg.Mode = "stop" →
      assemblerCalls (main w).trace = []
      ∧ (main w).res = .val ()
      ∧ errorLogs (main w).trace = []
      ∧ ∃ pre, (main w).trace = pre ++ [.log .info "server stopped in stop mode"] := by
    intro hmode
    rw [main_stop_eq w cfg hload hlog hmode]
    refine ⟨?_, rfl, ?_, ⟨(LoadConfig w).trace ++ (SetLogging w cfg).trace
      ++ [.log .notice "stop mode start."], ?_⟩⟩
    · simp [assemblerCalls, hf1, hf2, Event.isCall]
    · simp [errorLogs, hf3, hf4, Event.isErrorLog]
    · simp
  refine ⟨?_, hserver, hhttp, hother, hstop⟩
  by_cases m1 : cfg.Mode = "stop"
  · rw [(hstop m1).1]; simp
  · by_cases m2 : cfg.Mode = "server"
    · rw [(hserver m2).1]; simp
    · by_cases m3 : cfg.Mode = "http"
      · rw [(hhttp m3).1]; simp
      · rw [(hother m1 m2 m3).1]; simp

/-- C10 (amended): a configuration file that cannot be opened or decoded is printed
and `main` returns; an assembler error is logged at error severity and `main` returns;
but a log file that cannot be opened ends the process in `log.Fatal` with exit status 1,
and an unrecognised log level name ends it in a panic. -/
theorem main_startup_failure (w : World) :
    (∀ err, w.osOpen w.configfile = some err →
        main w = ⟨[.osOpen w.configfile, .println err.msg], .val ()⟩)
      ∧ (w.osOpen w.configfile = none →
          ∀ cfg err, w.jsonDecode w.configfile = (cfg, some err) →
        main w
          = ⟨[.osOpen w.configfile, .jsonDecode w.configfile, .fileClose w.configfile,
              .println err.msg], .val ()⟩)
      ∧ (∀ cfg, (LoadConfig w).res = .val (cfg, none) → cfg.Logfile ≠ "" →
          ∀ err, w.osOpenFile cfg.Logfile = some err →
        main w
          = ⟨(LoadConfig w).trace ++ [.osOpenFile cfg.Logfile, .log .critical err.msg],
              .halt (.osExit 1)⟩)
      ∧ (∀ cfg, (LoadConfig w).res = .val (cfg, none) →
          (cfg.Logfile ≠ "" → w.osOpenFile cfg.Logfile = none) →
          ∀ err, w.logLevel cfg.Loglevel = .error err →
        (main w).res = .halt (.panicked err.msg))
      ∧ (∀ cfg, (LoadConfig w).res = .val (cfg, none) → (SetLogging w cfg).res = .val none →
          cfg.Mode = "server" →
          ∀ err, (run_server w cfg).res = .val (some err) →
        (main w).res = .val () ∧ errorLogs (main w).trace = [.log .error err.msg])
      ∧ (∀ cfg, (LoadConfig w).res = .val (cfg, none) → (SetLogging w cfg).res = .val none →
          cfg.Mode = "http" →
          ∀ err, (run_httproxy w cfg).res = .val (some err) →
        (main w).res = .val () ∧ errorLogs (main w).trace = [.log .error err.msg]) := by
  refine ⟨?_, ?_, ?_, ?_, ?_, ?_⟩
  · intro err h
    simp only [main]
    rw [LoadConfig_eq]
    simp [h, emit]
  · intro h cfg err hj
    simp only [main]
    rw [LoadConfig_eq]
    simp [h, hj, emit]
  · intro cfg hload hf err ho
    have hs : SetLogging w cfg
        = ⟨[.osOpenFile cfg.Logfile, .log .critical err.msg], .halt (.osExit 1)⟩ := by
      rw [SetLogging_eq]
      simp [hf, ho]
    rw [main_logging_halt w cfg (.osExit 1) hload (by rw [hs]), hs]
  · intro cfg hload ho err hl
    have hs : (SetLogging w cfg).res = .halt (.panicked err.msg) := by
      rw [SetLogging_eq]
      by_cases hf : cfg.Logfile = ""
      · simp [hf, hl]
      · simp [hf, ho hf, hl]
    rw [main_logging_halt w cfg _ hload hs]
  · intro cfg hload hlog hmode err hr
    obtain ⟨hf1, hf2, hf3, hf4⟩ := startup_filters w cfg
    have hq := (run_server_quiet w cfg).2
    simp only [errorLogs] at hq
    rw [main_server_eq w cfg hload hlog hmode]
    simp only [hr]
    refine ⟨trivial, ?_⟩
    simp [errorLogs, hf3, hf4 hlog, hq, Event.isErrorLog]
  · intro cfg hload hlog hmode err hr
    obtain ⟨hf1, hf2, hf3, hf4⟩ := startup_filters w cfg
    have hq := (run_httproxy_quiet w cfg).2
    simp only [errorLogs] at hq
    rw [main_http_eq w cfg hload hlog hmode]
    simp only [hr]
    refine ⟨trivial, ?_⟩
    simp [errorLogs, hf3, hf4 hlog, hq, Event.isErrorLog]

/-! ## Concrete runs -/

/-- C1 at a concrete input: with a blacklist file and every step succeeding, the proxy
gets the filtered dialer over the tunnel dialer and the direct dialer. -/
theorem run_httproxy_dialer_witness :
    handedDialers (run_httproxy (worldOf blackCfg) blackCfg).trace
      = [.filtered (.msocks (.crypt .DefaultTcpDialer "aes" "k") "srv:5234" "alice" "secret")
          .DefaultTcpDialer "/etc/goproxy/black.txt"] :=
  (run_httproxy_dialer (worldOf blackCfg) blackCfg rfl rfl rfl (fun _ => rfl)).2.1 (by decide)

/-- C2 at a concrete input: when the bind fails, `run_server` stops after `net.Listen`
and returns the bind error. -/
theorem run_server_steps_witness :
    run_server (bindFailWorld serverCfg) serverCfg
      = ⟨[.netListen "tcp" ":5233"], .val (some ⟨"address already in use"⟩)⟩ :=
  (run_server_steps (bindFailWorld serverCfg) serverCfg).1 _ rfl

/-- C3 at a concrete input: when the tunnel server rejects the credentials,
`run_httproxy` stops after `msocks.NewDialer` and returns that error. -/
theorem run_httproxy_steps_witness :
    run_httproxy (authFailWorld sampleCfg) sampleCfg
      = ⟨[.dnsLoadConfig "resolv.conf", .cryptNewDialer .DefaultTcpDialer "aes" "k",
          .msocksNewDialer (.crypt .DefaultTcpDialer "aes" "k") "srv:5234" "alice" "secret"],
          .val (some ⟨"auth failed"⟩)⟩ :=
  (run_httproxy_steps (authFailWorld sampleCfg) sampleCfg).2.2.2.1 rfl rfl _ rfl

/-- C4 at a concrete input: a missing explicit resolver file is the only one tried. -/
theorem load_resolv_conf_explicit_witness :
    load_resolv_conf (noResolvWorld customCfg) customCfg
      = ⟨[.dnsLoadConfig "custom.conf"], .val (some ⟨"no such file or directory"⟩)⟩ :=
  (load_resolv_conf_explicit (noResolvWorld customCfg) customCfg (by decide)).1

/-- C5 at a concrete input: without a local resolver file the system one is tried and
its outcome returned. -/
theorem load_resolv_conf_search_witness :
    load_resolv_conf (systemResolvWorld sampleCfg) sampleCfg
      = ⟨[.dnsLoadConfig "resolv.conf", .dnsLoadConfig "/etc/goproxy/resolv.conf"],
          .val none⟩ :=
  (load_resolv_conf_search (systemResolvWorld sampleCfg) sampleCfg rfl).2 _ rfl

/-- C6 at a concrete input: stop mode with working logging. -/
theorem main_stop_witness :
    main (worldOf stopCfg)
      = ⟨[.osOpen "/etc/goproxy/config.json", .jsonDecode "/etc/goproxy/config.json",
          .fileClose "/etc/goproxy/config.json", .setBackend .stdout, .setFormatter,
          .logLevel "INFO", .setLevel .info, .log .notice "stop mode start.",
          .log .info "server stopped in stop mode"], .val ()⟩ :=
  ((main_stop (worldOf stopCfg) stopCfg rfl rfl).2.2 rfl).1

/-- C6 as stated fails: a loaded stop-mode configuration whose log file cannot be
opened makes `main` log the error at critical severity and exit with status 1. -/
theorem main_stop_counterexample :
    (LoadConfig (logFileFailWorld { stopCfg with Logfile := "/var/log/goproxy.log" })).res
        = .val ({ stopCfg with Logfile := "/var/log/goproxy.log" }, none)
      ∧ ({ stopCfg with Logfile := "/var/log/goproxy.log" } : Config).Mode = "stop"
      ∧ main (logFileFailWorld { stopCfg with Logfile := "/var/log/goproxy.log" })
        = ⟨[.osOpen "/etc/goproxy/config.json", .jsonDecode "/etc/goproxy/config.json",
            .fileClose "/etc/goproxy/config.json", .osOpenFile "/var/log/goproxy.log",
            .log .critical "permission denied"], .halt (.osExit 1)⟩ := by
  decide

/-- C7 at a concrete input: an unknown mode with working logging. -/
theorem main_unsupported_witness :
    main (worldOf socksCfg)
      = ⟨[.osOpen "/etc/goproxy/config.json", .jsonDecode "/etc/goproxy/config.json",
          .fileClose "/etc/goproxy/config.json", .setBackend .stdout, .setFormatter,
          .logLevel "INFO", .setLevel .info, .log .notice "socks5 mode start.",
          .log .warning "not supported mode.", .log .info "server stopped"], .val ()⟩ :=
  ((main_unsupported (worldOf socksCfg) socksCfg rfl (by decide) (by decide)
    (by decide)).2.2 rfl).1

/-- C7 as stated fails: a loaded configuration with an unknown mode and an unrecognised
log level makes `main` panic before any warning or `server stopped` line is logged. -/
theorem main_unsupported_counterexample :
    (LoadConfig (logLevelFailWorld { socksCfg with Loglevel := "verbose" })).res
        = .val ({ socksCfg with Loglevel := "verbose" }, none)
      ∧ ({ socksCfg with Loglevel := "verbose" } : Config).Mode = "socks5"
      ∧ main (logLevelFailWorld { socksCfg with Loglevel := "verbose" })
        = ⟨[.osOpen "/etc/goproxy/config.json", .jsonDecode "/etc/goproxy/config.json",
            .fileClose "/etc/goproxy/config.json", .setBackend .stdout, .setFormatter,
            .logLevel "verbose"], .halt (.panicked "logger: invalid log level")⟩ := by
  decide

/-- C8 at a concrete input: with a blacklist file, the routes are registered by the
manager of the tunnel dialer, not of the filtered dialer. -/
theorem run_httproxy_admin_witness :
    registrations (run_httproxy (worldOf blackCfg) blackCfg).trace
      = [NewMsocksManager ⟨.crypt .DefaultTcpDialer "aes" "k", "srv:5234", "alice", "secret"⟩] :=
  (run_httproxy_admin (worldOf blackCfg) blackCfg rfl rfl rfl (fun _ => rfl)).1

/-- C9 at a concrete input: a bind failure in server mode is logged once at error
severity and the run ends with the `server stopped` line. -/
theorem main_dispatch_witness :
    (main (bindFailWorld serverCfg)).res = .val ()
      ∧ errorLogs (main (bindFailWorld serverCfg)).trace
        = [.log .error "address already in use"]
      ∧ ∃ pre, (main (bindFailWorld serverCfg)).trace
          = pre ++ [.log .error "address already in use", .log .info "server stopped"] :=
  ((main_dispatch (bindFailWorld serverCfg) serverCfg rfl rfl).2.1 rfl).2.1 _ rfl

/-- C10 at a concrete input: a missing configuration file is printed and `main`
returns. -/
theorem main_startup_failure_witness :
    main noConfigWorld
      = ⟨[.osOpen "/etc/goproxy/config.json", .println "no such file or directory"],
          .val ()⟩ :=
  (main_startup_failure noConfigWorld).1 _ rfl

/-- C10 as stated fails: with a log file that cannot be opened `main` does not return
but exits with status 1, and with an unrecognised log level it panics. -/
theorem main_startup_failure_counterexample :
    (main (logFileFailWorld { serverCfg with Logfile := "/var/log/goproxy.log" })).res
        = .halt (.osExit 1)
      ∧ (main (logLevelFailWorld { serverCfg with Loglevel := "verbose" })).res
        = .halt (.panicked "logger: invalid log level") := by
  decide

end Goproxy
